import Mathlib

/-!
Verification of the AI-learning ledger engine of `portfolio-daily`
(`src/aiLearning.js`, mirrored in `src/diff.js` lines 579-1426 of the
source snapshot): prediction extraction from schema-less analyst
documents, time-windowed outcome resolution against factual snapshots,
accuracy/calibration aggregation, insight generation, and the ledger
update cycle.

Modelling conventions:
* JavaScript numbers are idealised as rationals (`ℚ`); every value the
  engine manipulates is finite, so the `Number.isFinite` guards of the
  source never fire in the model.
* ISO `YYYY-MM-DD` date strings are modelled as day numbers (`ℕ`).
  Lexicographic order on ISO dates coincides with chronological order,
  and the source's `Date`-based "issue date + horizon days" arithmetic
  becomes addition.
* Parsed JSON values (`JSON.parse` output) are modelled by the `Json`
  inductive.  `undefined` (a missing object field) is collapsed into
  `Json.null`: the source only ever distinguishes the two through
  truthiness and `typeof` guards that treat them identically on every
  path reached here.  Objects produced by `JSON.parse` have unique keys,
  so field lookup by first match is exact.
* `fs` reads that fail, and files whose parsed value is falsy and hence
  skipped by the `!x` guards of the source, are modelled as `none`.
-/

namespace AiLearning

/-- A JSON value as produced by `JSON.parse`. -/
inductive Json where
  | null : Json
  | bool (b : Bool) : Json
  | num (q : ℚ) : Json
  | str (s : String) : Json
  | arr (elems : List Json) : Json
  | obj (fields : List (String × Json)) : Json

/-- JavaScript truthiness test (`!v` is `jsFalsy v`): `null`/`undefined`,
`false`, `0` and `""` are falsy; every object and array is truthy. -/
def jsFalsy : Json → Bool
  | .null => true
  | .bool b => !b
  | .num q => q = 0
  | .str s => s = ""
  | .arr _ => false
  | .obj _ => false

/-- JavaScript `typeof v === "object"` (true for objects, arrays and
`null`). -/
def jsTypeObj : Json → Bool
  | .obj _ => true
  | .arr _ => true
  | .null => true
  | _ => false

/-- Property access `v[k]`; a missing field (or access on a non-object)
yields `undefined`, collapsed to `.null` (see module conventions). -/
def jget (j : Json) (k : String) : Json :=
  match j with
  | .obj fields =>
    match fields.find? (fun f => f.1 = k) with
    | some f => f.2
    | none => .null
  | _ => .null

/-- JavaScript `a || b`: the left operand unless it is falsy. -/
def jsOr (a b : Json) : Json := if jsFalsy a then b else a

/-- `Array.prototype.join` with the default `","` separator. -/
def joinComma : List String → String
  | [] => ""
  | [s] => s
  | s :: rest => s ++ "," ++ joinComma rest

/-- Decimal digits of the fractional part `0 ≤ q < 1`, up to `fuel`
digits (JavaScript prints at most 17 significant digits; none of the
string-matching the engine performs distinguishes longer tails). -/
def fracDigits : ℕ → ℚ → String
  | 0, _ => ""
  | n + 1, q =>
    if q = 0 then ""
    else
      let d := (⌊q * 10⌋).toNat
      toString d ++ fracDigits n (q * 10 - (d : ℚ))

/-- JavaScript `String(n)` for a number, exact for integers and finite
decimal fractions. -/
def numToJsString (q : ℚ) : String :=
  let sign := if q < 0 then "-" else ""
  let a := |q|
  let ip := (⌊a⌋).toNat
  let fp := a - (ip : ℚ)
  if fp = 0 then sign ++ toString ip
  else sign ++ toString ip ++ "." ++ fracDigits 20 fp

mutual

/-- JavaScript `String(v)` coercion. -/
def jsToString : Json → String
  | .null => "null"
  | .bool true => "true"
  | .bool false => "false"
  | .num q => numToJsString q
  | .str s => s
  | .arr elems => joinComma (jsToStringElems elems)
  | .obj _ => "[object Object]"

/-- Elementwise string coercion for `Array.prototype.join`, where `null`
and `undefined` elements become the empty string. -/
def jsToStringElems : List Json → List String
  | [] => []
  | .null :: rest => "" :: jsToStringElems rest
  | j :: rest => jsToString j :: jsToStringElems rest

end

/-- `String.prototype.toUpperCase`. -/
def jsToUpper (s : String) : String := ⟨s.data.map Char.toUpper⟩

/-- `String.prototype.toLowerCase`. -/
def jsToLower (s : String) : String := ⟨s.data.map Char.toLower⟩

/-- `String.prototype.trim`. -/
def jsTrim (s : String) : String :=
  ⟨((s.data.dropWhile Char.isWhitespace).reverse.dropWhile Char.isWhitespace).reverse⟩

/-- Substring search on character lists (`needle` occurs in `hay`). -/
def charsHave : List Char → List Char → Bool
  | [], needle => needle.isEmpty
  | c :: t, needle => needle.isPrefixOf (c :: t) || charsHave t needle

/-- `String.prototype.includes` (the engine only calls it with non-empty
literal patterns). -/
def jsIncludes (s pat : String) : Bool := charsHave s.data pat.data

/-- `String.prototype.startsWith`. -/
def jsStarts (s pre : String) : Bool := pre.data.isPrefixOf s.data

/-- Value of a digit run, most significant first. -/
def digitsVal (cs : List Char) : ℕ :=
  cs.foldl (fun acc c => 10 * acc + (c.toNat - 48)) 0

/-- Value of the digit run after a decimal point. -/
def fracVal : List Char → ℚ
  | [] => 0
  | c :: rest => (((c.toNat - 48 : ℕ) : ℚ) + fracVal rest) / 10

/-- `parseFloat` applied to a run of digits and dots (the shape matched
by the `([\d.]+)` capture of `parseProb`): leading integer digits, an
optional dot and fractional digits; anything after a second dot is
ignored; a run with no digit before the ignored tail is `NaN` (`none`). -/
def parseDecimal (cs : List Char) : Option ℚ :=
  let ip := cs.takeWhile Char.isDigit
  let rest := cs.drop ip.length
  match rest with
  | '.' :: rest2 =>
    let fp := rest2.takeWhile Char.isDigit
    if ip.isEmpty ∧ fp.isEmpty then none
    else some ((digitsVal ip : ℚ) + fracVal fp)
  | _ => if ip.isEmpty then none else some ((digitsVal ip : ℚ))

/-- First maximal run of characters matching `[\d.]`, as matched by the
regular expression `([\d.]+)`; `none` when no such character occurs. -/
def firstNumRun (cs : List Char) : Option (List Char) :=
  match cs.dropWhile (fun c => !(c.isDigit || c = '.')) with
  | [] => none
  | run => some (run.takeWhile (fun c => c.isDigit || c = '.'))

/-- Signed exponent digits after `e`/`E` in `parseFloat`; missing digits
leave the exponent at zero (as `parseFloat "5e"` is `5`). -/
def parseSignedExp (cs : List Char) : ℤ :=
  match cs with
  | '-' :: r => let ds := r.takeWhile Char.isDigit
                if ds.isEmpty then 0 else -(digitsVal ds : ℤ)
  | '+' :: r => let ds := r.takeWhile Char.isDigit
                if ds.isEmpty then 0 else (digitsVal ds : ℤ)
  | r => let ds := r.takeWhile Char.isDigit
         if ds.isEmpty then 0 else (digitsVal ds : ℤ)

/-- Exponent part of a `parseFloat` literal, if present. -/
def parseExponent : List Char → ℤ
  | 'e' :: rest => parseSignedExp rest
  | 'E' :: rest => parseSignedExp rest
  | _ => 0

/-- Mantissa (and optional exponent) of a `parseFloat` literal. -/
def parseMantissaExp (cs : List Char) : Option ℚ :=
  let ip := cs.takeWhile Char.isDigit
  let r1 := cs.drop ip.length
  let fpRest : List Char × List Char :=
    match r1 with
    | '.' :: r2 => (r2.takeWhile Char.isDigit, r2.dropWhile Char.isDigit)
    | _ => ([], r1)
  if ip.isEmpty ∧ fpRest.1.isEmpty then none
  else some (((digitsVal ip : ℚ) + fracVal fpRest.1) * (10 : ℚ) ^ parseExponent fpRest.2)

/-- JavaScript `parseFloat` on a string: skip leading whitespace, parse
an optional sign, decimal mantissa and optional exponent; `none` models
`NaN`. -/
def parseFloatChars (cs : List Char) : Option ℚ :=
  let cs1 := cs.dropWhile Char.isWhitespace
  match cs1 with
  | '-' :: r => (parseMantissaExp r).map (fun q => -q)
  | '+' :: r => parseMantissaExp r
  | r => parseMantissaExp r

/-- `parseFloat(v)` on an arbitrary value: numbers pass through, any
other value is coerced to a string first. -/
def jsParseFloat (j : Json) : Option ℚ :=
  match j with
  | .num q => some q
  | j => parseFloatChars (jsToString j).data

/-- `parseFloat(v) || null` followed by the `Number.isFinite` guard of
`parseActionItem`: `NaN` and `0` both collapse to `null`. -/
def floatOrNull (j : Json) : Option ℚ :=
  match jsParseFloat j with
  | none => none
  | some q => if q = 0 then none else some q

/-- Numeric value matched by `parseProb` inside a string argument. -/
def strNumVal (s : String) : Option ℚ :=
  match firstNumRun s.data with
  | none => none
  | some run => parseDecimal run

/-- `parseProb` (diff.js 652-660): a number above 1 is read as a
percentage; a string is searched for its first `[\d.]+` run, which is
parsed and scaled the same way; anything else is `null`. -/
def parseProb (raw : Json) : Option ℚ :=
  match raw with
  | .num q => some (if 1 < q then q / 100 else q)
  | .str s =>
    match strNumVal s with
    | none => none
    | some q => some (if 1 < q then q / 100 else q)
  | _ => none

/-- `normalizeAction` (diff.js 638-646). -/
def normalizeAction (raw : Json) : String :=
  if jsFalsy raw then "UNKNOWN"
  else
    let upper := jsTrim (jsToUpper (jsToString raw))
    if jsStarts upper "BUY" || upper = "ADD" then "BUY"
    else if jsStarts upper "SELL" || upper = "EXIT" || upper = "CLOSE" then "SELL"
    else if jsStarts upper "HOLD" || upper = "MAINTAIN" || upper = "KEEP" then "HOLD"
    else if jsStarts upper "TRIM" || upper = "REDUCE" || upper = "LIGHTEN" then "TRIM"
    else "UNKNOWN"

/-- `normalizeHorizon` (diff.js 795-803). -/
def normalizeHorizon (raw : Json) : String :=
  if jsFalsy raw then "24h"
  else
    let s := jsTrim (jsToLower (jsToString raw))
    if jsIncludes s "24" || jsIncludes s "1 day" || jsIncludes s "1d" || jsIncludes s "day" then "24h"
    else if jsIncludes s "2 week" || jsIncludes s "2w" || jsIncludes s "14d" || jsIncludes s "2-week" then "2w"
    else if jsIncludes s "1 week" || jsIncludes s "1w" || jsIncludes s "7d" || jsIncludes s "week" then "1w"
    else if jsIncludes s "month" || jsIncludes s "30d" || jsIncludes s "4w" then "1m"
    else "24h"

/-- `horizonToDays` (diff.js 805-813). -/
def horizonToDays (horizon : String) : ℕ :=
  if horizon = "24h" then 1
  else if horizon = "1w" then 7
  else if horizon = "2w" then 14
  else if horizon = "1m" then 30
  else 1

/-- JavaScript `Math.round` (half towards positive infinity). -/
def jsRound (x : ℚ) : ℤ := ⌊x + 1 / 2⌋

/-- `round4` (diff.js 583-586) on a finite number. -/
def round4 (v : ℚ) : ℚ := (jsRound (v * 10000) : ℚ) / 10000

/-- `round4` lifted to nullable values (`round4 null` is `null`). -/
def round4Opt (v : Option ℚ) : Option ℚ := v.map round4

/-- Outcome record attached to a resolved prediction (see §3 of the
spec and the literals of `resolvePrediction`/`resolveScenarioPrediction`). -/
structure Outcome where
  resolvedDate : ℕ
  actualDirection : String
  pnlPctChange : ℚ
  mvChange : ℚ
  correct : Bool
  stopHit : Bool
  positionExited : Bool
  positionEntered : Bool
deriving DecidableEq, Repr

/-- Canonical prediction record as built by `parseActionItem` and the
scenario extractor (diff.js 779-792 and 842-856).  Non-scenario records
carry `scenarioLabel = none` (the field is absent in the source). -/
structure Prediction where
  date : ℕ
  symbol : String
  wallet : String
  action : String
  confidence : Option ℚ
  horizon : String
  expectedDirection : Option String
  triggerLevel : Option ℚ
  stopLevel : Option ℚ
  sizeChangePct : Option ℚ
  scenarioLabel : Option String
  resolved : Bool
  outcome : Option Outcome
deriving DecidableEq, Repr

/-- `parseActionItem` (diff.js 763-793). -/
def parseActionItem (item : Json) (date : ℕ) (wallet : String) : Option Prediction :=
  if jsFalsy item ∨ ¬ jsTypeObj item then none
  else
    let symbol := jsTrim (jsToUpper (jsToString
      (jsOr (jget item "symbol") (jsOr (jget item "ticker") (jsOr (jget item "name") (.str ""))))))
    if symbol = "" then none
    else
      let action := normalizeAction
        (jsOr (jget item "action") (jsOr (jget item "actionNow")
          (jsOr (jget item "action_now") (jget item "recommendation"))))
      let confidence := parseProb
        (jsOr (jget item "confidence") (jsOr (jget item "probability") (jget item "prob")))
      let triggerLevel := floatOrNull
        (jsOr (jget item "triggerLevel") (jsOr (jget item "trigger")
          (jsOr (jget item "entry") (jget item "triggerPrice"))))
      let stopLevel := floatOrNull
        (jsOr (jget item "stopLevel") (jsOr (jget item "stop")
          (jsOr (jget item "invalidation") (jget item "stopLoss"))))
      let expectedDirection : Option String :=
        if action = "BUY" then some "up"
        else if action = "SELL" ∨ action = "TRIM" then some "down"
        else if action = "HOLD" then some "flat"
        else none
      some
        { date := date
          symbol := symbol
          wallet := wallet
          action := action
          confidence := round4Opt confidence
          horizon := normalizeHorizon (jsOr (jget item "horizon") (jsOr (jget item "timeframe") (.str "24h")))
          expectedDirection := expectedDirection
          triggerLevel := triggerLevel
          stopLevel := stopLevel
          sizeChangePct := parseProb
            (jsOr (jget item "sizeChange") (jsOr (jget item "size_change") (jget item "sizing")))
          scenarioLabel := none
          resolved := false
          outcome := none }

/-- One entry of the scenario loop of `extractWalletScenarios`
(diff.js 836-858); `none` when the entry is skipped. -/
def scenarioEntry (scenario : Json) (date : ℕ) (wallet : String) : Option Prediction :=
  if jsFalsy scenario ∨ ¬ jsTypeObj scenario then none
  else
    let label := jsToLower (jsToString
      (jsOr (jget scenario "name") (jsOr (jget scenario "label")
        (jsOr (jget scenario "scenario") (.str "unknown")))))
    match parseProb (jsOr (jget scenario "probability")
        (jsOr (jget scenario "prob") (jget scenario "likelihood"))) with
    | none => none
    | some prob =>
      some
        { date := date
          symbol := "__SCENARIO__"
          wallet := wallet
          action := "SCENARIO"
          confidence := round4Opt (some prob)
          horizon := normalizeHorizon (jsOr (jget scenario "horizon") (jsOr (jget scenario "timeframe") (.str "2w")))
          expectedDirection := some
            (if jsIncludes label "bull" then "up"
             else if jsIncludes label "bear" then "down"
             else "flat")
          triggerLevel := none
          stopLevel := none
          sizeChangePct := none
          scenarioLabel := some label
          resolved := false
          outcome := none }

/-- `extractWalletScenarios` (diff.js 829-861): an array is iterated
directly, any other object via `Object.values`. -/
def extractWalletScenarios (scenarioData : Json) (date : ℕ) (wallet : String) : List Prediction :=
  if jsFalsy scenarioData ∨ ¬ jsTypeObj scenarioData then []
  else
    let scenarioList : List Json :=
      match scenarioData with
      | .arr xs => xs
      | .obj fields => fields.map (fun f => f.2)
      | _ => []
    scenarioList.filterMap (fun s => scenarioEntry s date wallet)

/-- Wallet name for an entry of the top-level `wallets` array
(diff.js 729); the source keeps the raw value, which only ever feeds
string interpolation and map keys, so it is coerced here. -/
def walletNameOf (w : Json) : String :=
  jsToString (jsOr (jget w "walletName") (jsOr (jget w "wallet") (jsOr (jget w "name") (.str "unknown"))))

/-- `findWalletSections` (diff.js 703-736), returning the wallet value
paired with its wallet name. -/
def findWalletSections (data : Json) : List (Json × String) :=
  let topLevel :=
    match data with
    | .obj fields =>
      fields.filterMap (fun kv =>
        let lower := jsToLower kv.1
        if jsIncludes lower "wallet" || jsIncludes lower "us_equit" || jsIncludes lower "crypto" ||
            jsIncludes lower "egx" || jsIncludes lower "thndr" || jsIncludes lower "equities" then
          if !(jsFalsy kv.2) && jsTypeObj kv.2 then some (kv.2, kv.1) else none
        else none)
    | _ => []
  let fromWalletsArr :=
    match jget data "wallets" with
    | .arr ws =>
      ws.filterMap (fun w =>
        if !(jsFalsy w) && jsTypeObj w then some (w, walletNameOf w) else none)
    | _ => []
  topLevel ++ fromWalletsArr

/-- Field names scanned for action arrays inside a wallet section
(diff.js 741-744). -/
def actionListFields : List String :=
  ["actions", "actionPlan", "action_plan", "recommendations",
   "holdings", "positions", "holdingActions", "holding_actions"]

/-- `extractActionsFromWallet` (diff.js 738-761). -/
def extractActionsFromWallet (wallet : Json) (walletName : String) (date : ℕ) : List Prediction :=
  let actions := actionListFields.flatMap (fun field =>
    match jget wallet field with
    | .arr items => items.filterMap (fun item => parseActionItem item date walletName)
    | _ => [])
  let scenarioData := jsOr (jget wallet "scenarios")
    (jsOr (jget wallet "scenarioMatrix") (jget wallet "scenario_matrix"))
  if !(jsFalsy scenarioData) then actions ++ extractWalletScenarios scenarioData date walletName
  else actions

/-- `extractScenarios` (diff.js 815-827). -/
def extractScenarios (data : Json) (date : ℕ) : List Prediction :=
  ["scenarioMatrix", "scenario_matrix", "scenarios"].flatMap (fun field =>
    let v := jget data field
    if !(jsFalsy v) && jsTypeObj v then extractWalletScenarios v date "portfolio" else [])

/-- Deduplication key `date:symbol:horizon:wallet(:scenarioLabel)`
(diff.js 695-696); the scenario suffix is added only when the label is
truthy. -/
def predKey (p : Prediction) : String :=
  let scenarioSuffix :=
    match p.scenarioLabel with
    | some l => if l = "" then "" else ":" ++ l
    | none => ""
  toString p.date ++ ":" ++ p.symbol ++ ":" ++ p.horizon ++ ":" ++ p.wallet ++ scenarioSuffix

/-- First-occurrence-wins filter over the dedup key (the `seen` set of
diff.js 693-700). -/
def dedupBySeen (seen : List String) : List Prediction → List Prediction
  | [] => []
  | p :: rest =>
    if seen.contains (predKey p) then dedupBySeen seen rest
    else p :: dedupBySeen (predKey p :: seen) rest

/-- `extractPredictions` (diff.js 666-701): union of the wallet-section
scan, the top-level action lists and the scenario matrices, then
deduplicated. -/
def extractPredictions (aiData : Json) (date : ℕ) : List Prediction :=
  if jsFalsy aiData ∨ ¬ jsTypeObj aiData then []
  else
    let fromWallets := (findWalletSections aiData).flatMap
      (fun ws => extractActionsFromWallet ws.1 ws.2 date)
    let fromTop := ["actions", "recommendations", "actionPlan", "action_plan"].flatMap (fun field =>
      match jget aiData field with
      | .arr items => items.filterMap (fun item => parseActionItem item date "combined")
      | _ => [])
    let scenarios := extractScenarios aiData date
    dedupBySeen [] (fromWallets ++ fromTop ++ scenarios)

/-- Position record of a factual snapshot after the `?? 0` defaults of
`buildPositionMap` (diff.js 872-879). -/
structure Position where
  symbol : String
  marketValue : ℚ
  pnl : ℚ
  pnlPct : ℚ
  spent : ℚ
  quantity : ℚ
deriving DecidableEq, Repr

/-- Raw position entry of a factual report, fields possibly absent. -/
structure RawPosition where
  symbol : String
  marketValue : Option ℚ
  pnl : Option ℚ
  pnlPct : Option ℚ
  spent : Option ℚ
  quantity : Option ℚ
deriving DecidableEq, Repr

/-- A factual daily report, modelled at the granularity the resolver
reads it: the optional chain `report?.combined?.positions`
(diff.js 870), `none` when either link is missing.  Symbols are strings,
as produced by this repository's own report writer. -/
structure Report where
  positions : Option (List RawPosition)
deriving DecidableEq, Repr

/-- Symbol-keyed position map (`Map` of diff.js 868-882, insertion
ordered; `Map.set` overwrites in place). -/
abbrev PosMap := List (String × Position)

/-- `Map.prototype.set` on the position map. -/
def mapSet (m : PosMap) (k : String) (v : Position) : PosMap :=
  if m.any (fun e => e.1 = k) then m.map (fun e => if e.1 = k then (k, v) else e)
  else m ++ [(k, v)]

/-- `Map.prototype.get` on the position map. -/
def mapGet (m : PosMap) (k : String) : Option Position :=
  (m.find? (fun e => e.1 = k)).map (fun e => e.2)

/-- `buildPositionMap` (diff.js 868-882). -/
def buildPositionMap (report : Report) : PosMap :=
  match report.positions with
  | none => []
  | some ps =>
    ps.foldl (fun m pos => mapSet m pos.symbol
      { symbol := pos.symbol
        marketValue := pos.marketValue.getD 0
        pnl := pos.pnl.getD 0
        pnlPct := pos.pnlPct.getD 0
        spent := pos.spent.getD 0
        quantity := pos.quantity.getD 0 }) []

/-- `resolveScenarioPrediction` (diff.js 946-979): portfolio-level
market-value percentage change with the same dead zone, exact match
against the expected direction. -/
def resolveScenarioPrediction (prediction : Prediction)
    (beforePositions afterPositions : PosMap) (resolvedDate : ℕ) : Prediction :=
  if prediction.resolved then prediction
  else
    let totalMvBefore := (beforePositions.map (fun e => e.2.marketValue)).sum
    let totalMvAfter := (afterPositions.map (fun e => e.2.marketValue)).sum
    let mvChange := totalMvAfter - totalMvBefore
    let mvChangePct := if 0 < totalMvBefore then mvChange / totalMvBefore else 0
    let actualDirection :=
      if mvChangePct > 0.005 then "up"
      else if mvChangePct < -0.005 then "down"
      else "flat"
    let correct : Bool := prediction.expectedDirection = some actualDirection
    { prediction with
      resolved := true
      outcome := some
        { resolvedDate := resolvedDate
          actualDirection := actualDirection
          pnlPctChange := round4 mvChangePct
          mvChange := round4 mvChange
          correct := correct
          stopHit := false
          positionExited := false
          positionEntered := false } }

/-- `resolvePrediction` (diff.js 887-944). -/
def resolvePrediction (prediction : Prediction)
    (beforePositions afterPositions : PosMap) (resolvedDate : ℕ) : Prediction :=
  if prediction.resolved then prediction
  else if prediction.action = "SCENARIO" then
    resolveScenarioPrediction prediction beforePositions afterPositions resolvedDate
  else
    let before := mapGet beforePositions prediction.symbol
    let after := mapGet afterPositions prediction.symbol
    if before = none ∧ after = none then prediction
    else
      let beforePnlPct := (before.map Position.pnlPct).getD 0
      let afterPnlPct := (after.map Position.pnlPct).getD 0
      let pnlPctChange := round4 (afterPnlPct - beforePnlPct)
      let beforeMV := (before.map Position.marketValue).getD 0
      let afterMV := (after.map Position.marketValue).getD 0
      let mvChange := round4 (afterMV - beforeMV)
      let actualDirection :=
        if pnlPctChange > 0.005 then "up"
        else if pnlPctChange < -0.005 then "down"
        else "flat"
      let correctBase : Bool :=
        if prediction.expectedDirection = some "up" ∧ actualDirection = "up" then true
        else if prediction.expectedDirection = some "down" ∧ (actualDirection = "down" ∨ after = none) then true
        else if prediction.expectedDirection = some "flat" ∧ actualDirection = "flat" then true
        else false
      let correct : Bool :=
        if prediction.action = "HOLD" ∧ actualDirection ≠ "down" then true else correctBase
      let stopHit : Bool :=
        match prediction.stopLevel, after with
        | some sl, some a =>
          if sl ≠ 0 then
            let impliedPrice := if 0 < a.quantity then a.marketValue / a.quantity else 0
            decide ((prediction.expectedDirection = some "up" ∧ impliedPrice < sl) ∨
                    (prediction.expectedDirection = some "down" ∧ sl < impliedPrice))
          else false
        | _, _ => false
      { prediction with
        resolved := true
        outcome := some
          { resolvedDate := resolvedDate
            actualDirection := actualDirection
            pnlPctChange := pnlPctChange
            mvChange := mvChange
            correct := correct
            stopHit := stopHit
            positionExited := before.isSome && after.isNone
            positionEntered := before.isNone && after.isSome } }

/-- `p.outcome.correct` with a missing outcome read as incorrect (the
source only evaluates it on records whose outcome is present). -/
def outcomeCorrect (p : Prediction) : Bool :=
  match p.outcome with
  | some o => o.correct
  | none => false

/-- Per-group accuracy entry (diff.js 1034-1042). -/
structure GroupStat where
  total : ℕ
  correct : ℕ
  accuracy : ℚ
deriving DecidableEq, Repr

/-- One step of the grouping `Map` of `groupAccuracy` (diff.js 1024-1032),
keyed insertion-ordered. -/
def groupTally (acc : List (String × ℕ × ℕ)) (key : String) (correct : Bool) :
    List (String × ℕ × ℕ) :=
  if acc.any (fun e => e.1 = key) then
    acc.map (fun e => if e.1 = key then (e.1, e.2.1 + 1, e.2.2 + (if correct then 1 else 0)) else e)
  else acc ++ [(key, 1, if correct then 1 else 0)]

/-- `groupAccuracy` (diff.js 1024-1043). -/
def groupAccuracy (resolved : List Prediction) (keyFn : Prediction → String) :
    List (String × GroupStat) :=
  let groups := resolved.foldl (fun acc p => groupTally acc (keyFn p) (outcomeCorrect p)) []
  groups.map (fun g =>
    (g.1, { total := g.2.1, correct := g.2.2, accuracy := round4 ((g.2.2 : ℚ) / (g.2.1 : ℚ)) }))

/-- Calibration band (diff.js 1059-1064). -/
structure CalibrationBand where
  predictedProb : ℚ
  actualRate : ℚ
  sampleSize : ℕ
  gap : ℚ
deriving DecidableEq, Repr

/-- One step of the confidence-band `Map` of `computeCalibration`. -/
def bandTally (acc : List (ℚ × ℕ × ℕ)) (band : ℚ) (correct : Bool) : List (ℚ × ℕ × ℕ) :=
  if acc.any (fun e => e.1 = band) then
    acc.map (fun e => if e.1 = band then (e.1, e.2.1 + 1, e.2.2 + (if correct then 1 else 0)) else e)
  else acc ++ [(band, 1, if correct then 1 else 0)]

/-- Ascending insertion by band value, realising the
`sort((a, b) => a[0] - b[0])` of diff.js 1058 (band keys are unique). -/
def insertBand (x : ℚ × ℕ × ℕ) : List (ℚ × ℕ × ℕ) → List (ℚ × ℕ × ℕ)
  | [] => [x]
  | y :: ys => if x.1 < y.1 then x :: y :: ys else y :: insertBand x ys

/-- Sort of the band entries by band value. -/
def sortBands : List (ℚ × ℕ × ℕ) → List (ℚ × ℕ × ℕ)
  | [] => []
  | x :: xs => insertBand x (sortBands xs)

/-- `computeCalibration` (diff.js 1045-1065): bucket confidence-bearing
resolved predictions into 0.1-wide bands by `Math.round(c * 10) / 10`;
null confidence is skipped. -/
def computeCalibration (resolved : List Prediction) : List CalibrationBand :=
  let buckets := resolved.foldl (fun acc p =>
    match p.confidence with
    | none => acc
    | some c => bandTally acc ((jsRound (c * 10) : ℚ) / 10) (outcomeCorrect p)) []
  (sortBands buckets).map (fun b =>
    { predictedProb := b.1
      actualRate := round4 ((b.2.2 : ℚ) / (b.2.1 : ℚ))
      sampleSize := b.2.1
      gap := round4 |b.1 - (b.2.2 : ℚ) / (b.2.1 : ℚ)| })

/-- Aggregate accuracy snapshot (diff.js 983-1022); the grouped maps are
insertion-ordered association lists, as `Object.entries` preserves that
order. -/
structure Accuracy where
  totalPredictions : ℕ
  resolvedCount : ℕ
  unresolvedCount : ℕ
  overall : Option ℚ
  byAction : List (String × GroupStat)
  byHorizon : List (String × GroupStat)
  byWallet : List (String × GroupStat)
  bySymbol : List (String × GroupStat)
  calibration : List CalibrationBand
deriving DecidableEq, Repr

/-- `computeAccuracy` (diff.js 983-1022). -/
def computeAccuracy (predictions : List Prediction) : Accuracy :=
  let resolved := predictions.filter (fun p => p.resolved && p.outcome.isSome)
  if resolved.length = 0 then
    { totalPredictions := predictions.length
      resolvedCount := 0
      unresolvedCount := predictions.length
      overall := none
      byAction := []
      byHorizon := []
      byWallet := []
      bySymbol := []
      calibration := [] }
  else
    let correct := resolved.filter (fun p => outcomeCorrect p)
    { totalPredictions := predictions.length
      resolvedCount := resolved.length
      unresolvedCount := predictions.length - resolved.length
      overall := some (round4 ((correct.length : ℚ) / (resolved.length : ℚ)))
      byAction := groupAccuracy resolved (fun p => p.action)
      byHorizon := groupAccuracy resolved (fun p => p.horizon)
      byWallet := groupAccuracy resolved (fun p => p.wallet)
      bySymbol := groupAccuracy resolved (fun p => p.symbol)
      calibration := computeCalibration resolved }

/-- `(q * 100).toFixed(0)` for the non-negative rates the insight
templates interpolate (JavaScript `toFixed(0)` rounds half away from
zero, which on non-negative values equals `Math.round`). -/
def pctStr (q : ℚ) : String := toString (jsRound (q * 100))

/-- `Array.prototype.join(", ")` for the symbol name lists. -/
def joinCommaSpace : List String → String
  | [] => ""
  | [s] => s
  | s :: rest => s ++ ", " ++ joinCommaSpace rest

/-- Average calibration gap used by `generateInsights` (diff.js 1116). -/
def avgCalibrationGap (accuracy : Accuracy) : ℚ :=
  (accuracy.calibration.map CalibrationBand.gap).sum / (accuracy.calibration.length : ℚ)

/-- The constant overconfidence insight string (diff.js 1123). -/
def overconfidenceNote : String :=
  "Tendency toward overconfidence detected. When stating high-confidence predictions, actual accuracy is lower than claimed."

/-- The constant under-confidence insight string (diff.js 1128). -/
def underconfidenceNote : String :=
  "Tendency toward under-confidence detected. Some cautious predictions actually perform better than expected. Consider sizing up on these."

/-- The interpolated miscalibration insight string (diff.js 1118). -/
def miscalibrationNote (avgGap : ℚ) : String :=
  "Confidence calibration is off by " ++ pctStr avgGap ++ "pp on average. Predicted probabilities don\x27t match actual hit rates."

/-- `generateInsights` (diff.js 1069-1155), with every push of the
source realised as a list element in push order. -/
def generateInsights (accuracy : Accuracy) (predictions : List Prediction) : List String :=
  let resolved := predictions.filter (fun p => p.resolved && p.outcome.isSome)
  if resolved.length < 3 then
    ["Not enough resolved predictions yet to generate meaningful insights. Keep running daily analyses."]
  else
    let overallInsights :=
      match accuracy.overall with
      | none => []
      | some ov =>
        if ov ≥ 0.7 then
          ["Overall accuracy is strong at " ++ pctStr ov ++ "%. Maintain current analytical approach."]
        else if ov ≥ 0.5 then
          ["Overall accuracy is moderate at " ++ pctStr ov ++ "%. Look for patterns in incorrect predictions to improve."]
        else
          ["Overall accuracy is below 50% at " ++ pctStr ov ++ "%. Consider inverting or re-evaluating the analytical framework."]
    let actionInsights := accuracy.byAction.flatMap (fun e =>
      if e.2.total < 2 then []
      else if e.1 = "SCENARIO" then []
      else if e.2.accuracy < 0.4 then
        [e.1 ++ " recommendations have low accuracy (" ++ pctStr e.2.accuracy ++ "% over " ++
          toString e.2.total ++ " calls). Consider raising the conviction threshold before issuing " ++
          e.1 ++ " calls."]
      else if e.2.accuracy ≥ 0.75 then
        [e.1 ++ " recommendations are highly reliable (" ++ pctStr e.2.accuracy ++ "% over " ++
          toString e.2.total ++ " calls). Lean into this strength."]
      else [])
    let symbolEntries := accuracy.bySymbol.filter (fun e => e.1 ≠ "__SCENARIO__")
    let poorSymbols := symbolEntries.filter (fun e => 3 ≤ e.2.total ∧ e.2.accuracy < 0.4)
    let strongSymbols := symbolEntries.filter (fun e => 3 ≤ e.2.total ∧ e.2.accuracy ≥ 0.75)
    let poorInsights :=
      if poorSymbols.length ≠ 0 then
        let names := joinCommaSpace (poorSymbols.map (fun e => e.1 ++ " (" ++ pctStr e.2.accuracy ++ "%)"))
        ["Consistently poor accuracy on: " ++ names ++
          ". These symbols may need a different analytical lens or more conservative sizing."]
      else []
    let strongInsights :=
      if strongSymbols.length ≠ 0 then
        let names := joinCommaSpace (strongSymbols.map (fun e => e.1 ++ " (" ++ pctStr e.2.accuracy ++ "%)"))
        ["Strong track record on: " ++ names ++ ". Higher conviction warranted on these symbols."]
      else []
    let calibrationInsights :=
      if 2 ≤ accuracy.calibration.length then
        let avgGap := avgCalibrationGap accuracy
        (if avgGap > 0.15 then [miscalibrationNote avgGap] else []) ++
        (if (accuracy.calibration.filter
              (fun c => c.predictedProb > c.actualRate + 0.1 ∧ 3 ≤ c.sampleSize)).length ≠ 0 then
          [overconfidenceNote] else []) ++
        (if (accuracy.calibration.filter
              (fun c => c.actualRate > c.predictedProb + 0.1 ∧ 3 ≤ c.sampleSize)).length ≠ 0 then
          [underconfidenceNote] else [])
      else []
    let upPredictions := resolved.filter (fun p => p.expectedDirection = some "up")
    let downPredictions := resolved.filter (fun p => p.expectedDirection = some "down")
    let biasInsights :=
      if upPredictions.length ≠ 0 ∧ downPredictions.length ≠ 0 then
        let upRate := ((upPredictions.filter outcomeCorrect).length : ℚ) / (upPredictions.length : ℚ)
        let downRate := ((downPredictions.filter outcomeCorrect).length : ℚ) / (downPredictions.length : ℚ)
        (if upRate < 0.4 ∧ downRate ≥ 0.5 then
          ["Bullish bias detected: bearish calls are more accurate than bullish ones. Apply extra skepticism to BUY recommendations."]
        else []) ++
        (if downRate < 0.4 ∧ upRate ≥ 0.5 then
          ["Bearish bias detected: bullish calls are more accurate than bearish ones. Apply extra skepticism to SELL/TRIM recommendations."]
        else [])
      else []
    let walletInsights := accuracy.byWallet.flatMap (fun e =>
      if e.2.total < 3 then []
      else if e.2.accuracy < 0.4 then
        ["Wallet \"" ++ e.1 ++ "\" analysis underperforms (" ++ pctStr e.2.accuracy ++
          "% accuracy). Reevaluate the analytical approach for this market/asset class."]
      else [])
    overallInsights ++ actionInsights ++ poorInsights ++ strongInsights ++
      calibrationInsights ++ biasInsights ++ walletInsights

/-- Structured recommendation (diff.js 1163-1167). -/
structure Recommendation where
  priority : String
  category : String
  recommendation : String
deriving DecidableEq, Repr

/-- `generateRecommendations` (diff.js 1159-1202). -/
def generateRecommendations (accuracy : Accuracy) (_insights : List String) :
    List Recommendation :=
  if accuracy.resolvedCount < 5 then
    [{ priority := "high", category := "data",
       recommendation := "Continue running daily AI analysis to build up a meaningful prediction history. At least 5-10 resolved predictions needed for reliable insights." }]
  else
    let calRecs :=
      if (accuracy.calibration.filter (fun c => c.gap > 0.2 ∧ 3 ≤ c.sampleSize)).length ≠ 0 then
        [{ priority := "high", category := "calibration",
           recommendation := "Adjust confidence levels in predictions. Large gap between stated confidence and actual accuracy detected. Use past accuracy rates as priors." }]
      else []
    let actionRecs := accuracy.byAction.flatMap (fun e =>
      if e.1 = "SCENARIO" ∨ e.2.total < 3 then []
      else if e.2.accuracy < 0.4 then
        [{ priority := "high", category := "action_type",
           recommendation := "Reduce " ++ e.1 ++ " frequency or raise conviction threshold. Current accuracy: " ++
             pctStr e.2.accuracy ++ "% over " ++ toString e.2.total ++ " calls." }]
      else [])
    let strategyRecs :=
      match accuracy.overall with
      | some ov =>
        if ov < 0.5 then
          [{ priority := "critical", category := "strategy",
             recommendation := "Overall prediction accuracy below 50%. Consider: (1) narrowing prediction scope to highest-conviction calls only, (2) increasing use of HOLD over active BUY/SELL, (3) using wider stop levels." }]
        else []
      | none => []
    calRecs ++ actionRecs ++ strategyRecs

/-- Daily accuracy score entry (diff.js 1301-1308). -/
structure DailyScore where
  date : ℕ
  total : ℕ
  correct : ℕ
  accuracy : ℚ
deriving DecidableEq, Repr

/-- One step of the per-issue-date grouping `Map` (diff.js 1292-1299). -/
def dateTally (acc : List (ℕ × ℕ × ℕ)) (d : ℕ) (correct : Bool) : List (ℕ × ℕ × ℕ) :=
  if acc.any (fun e => e.1 = d) then
    acc.map (fun e => if e.1 = d then (e.1, e.2.1 + 1, e.2.2 + (if correct then 1 else 0)) else e)
  else acc ++ [(d, 1, if correct then 1 else 0)]

/-- Ascending insertion by date, realising the `localeCompare` sort of
diff.js 1302 (ISO order is chronological; date keys are unique). -/
def insertDate (x : ℕ × ℕ × ℕ) : List (ℕ × ℕ × ℕ) → List (ℕ × ℕ × ℕ)
  | [] => [x]
  | y :: ys => if x.1 < y.1 then x :: y :: ys else y :: insertDate x ys

/-- Sort of the daily entries by date. -/
def sortDates : List (ℕ × ℕ × ℕ) → List (ℕ × ℕ × ℕ)
  | [] => []
  | x :: xs => insertDate x (sortDates xs)

/-- Step 5 of `updateLearningLedger` (diff.js 1291-1308): per-issue-date
accuracy over resolved predictions. -/
def computeDailyScores (predictions : List Prediction) : List DailyScore :=
  let resolvedByDate := (predictions.filter (fun p => p.resolved && p.outcome.isSome)).foldl
    (fun acc p => dateTally acc p.date (outcomeCorrect p)) []
  (sortDates resolvedByDate).map (fun e =>
    { date := e.1, total := e.2.1, correct := e.2.2,
      accuracy := round4 ((e.2.2 : ℚ) / (e.2.1 : ℚ)) })

/-- The cumulative learning ledger (diff.js 1210-1218 and §3 of the
spec). -/
structure Ledger where
  version : ℕ
  lastUpdated : Option ℕ
  predictions : List Prediction
  accuracy : Option Accuracy
  insights : List String
  recommendations : List Recommendation
  dailyScores : List DailyScore
deriving DecidableEq, Repr

/-- The fresh empty ledger initialised by `loadLedger` (diff.js 1210-1218). -/
def freshLedger : Ledger :=
  { version := 1
    lastUpdated := none
    predictions := []
    accuracy := none
    insights := []
    recommendations := []
    dailyScores := [] }

/-- `loadLedger` (diff.js 1206-1219).  `ledgerText` is the raw content
of `ai-learning.json` (`none` when the file is missing or unreadable);
`parseLedger` models `JSON.parse` together with reading the parsed
object as a ledger (`none` on a parse error).  `loadJson` swallows read
and parse errors, returning `null`, so every failure falls through to
the fresh empty ledger; the `existing && existing.version` truthiness
guard is the `version ≠ 0` test. -/
def loadLedger (ledgerText : Option String) (parseLedger : String → Option Ledger) : Ledger :=
  match ledgerText with
  | none => freshLedger
  | some text =>
    match parseLedger text with
    | none => freshLedger
    | some existing => if existing.version ≠ 0 then existing else freshLedger

/-- External inputs of one update cycle: the sorted list of factual
report dates (`listReportDates`), the factual report for a date
(`loadJson` of `date.json`), the sorted list of analyst-document dates
(`listAiDates`), and the analyst document for a date (`loadJson` of
`date.ai.json`). -/
structure Env where
  factualDates : List ℕ
  report : ℕ → Option Report
  aiDates : List ℕ
  aiDoc : ℕ → Option Json

/-- Step 1 of `updateLearningLedger` (diff.js 1242-1253): extract
predictions from analyst documents whose date is not yet present among
the ledger's prediction issue dates. -/
def extractNewPredictions (env : Env) (existingPredictionDates : List ℕ) : List Prediction :=
  env.aiDates.flatMap (fun aiDate =>
    if existingPredictionDates.contains aiDate then []
    else
      match env.aiDoc aiDate with
      | none => []
      | some aiData => if jsFalsy aiData then [] else extractPredictions aiData aiDate)

/-- Body of the resolution loop of `updateLearningLedger`
(diff.js 1256-1282) for a single prediction: compute the target date,
find the earliest factual snapshot on or after it, skip if it lies
beyond the run's current date or either report is unavailable, otherwise
resolve. -/
def resolveStep (env : Env) (currentDate : ℕ) (pred : Prediction) : Prediction :=
  if pred.resolved then pred
  else
    let days := horizonToDays pred.horizon
    let targetDate := pred.date + days
    match env.factualDates.find? (fun d => targetDate ≤ d) with
    | none => pred
    | some resolveDate =>
      if currentDate < resolveDate then pred
      else
        match env.report pred.date, env.report resolveDate with
        | some beforeReport, some afterReport =>
          resolvePrediction pred (buildPositionMap beforeReport) (buildPositionMap afterReport) resolveDate
        | _, _ => pred

/-- Steps 1-2 of `updateLearningLedger` (diff.js 1242-1282): append the
newly extracted predictions (keyed off the issue dates already present)
and run the resolution loop over the whole list.  Each loop iteration
depends only on its own entry and the external inputs, so the in-place
`ledger.predictions[i] = resolvePrediction(...)` loop is a map. -/
def updatedPredictions (env : Env) (currentDate : ℕ) (ledger : Ledger) : List Prediction :=
  let existingPredictionDates := ledger.predictions.map Prediction.date
  let newPredictions := extractNewPredictions env existingPredictionDates
  (ledger.predictions ++ newPredictions).map (resolveStep env currentDate)

/-- `updateLearningLedger` (diff.js 1237-1316) as a pure function of the
loaded ledger and the external inputs: extract new predictions, resolve
unresolved ones, recompute accuracy, insights, recommendations and daily
scores, and stamp the current date.  (The final `saveLedger` persists
exactly the returned value.) -/
def updateLearningLedger (env : Env) (currentDate : ℕ) (ledger : Ledger) : Ledger :=
  let resolvedPredictions := updatedPredictions env currentDate ledger
  let accuracy := computeAccuracy resolvedPredictions
  let insights := generateInsights accuracy resolvedPredictions
  let recommendations := generateRecommendations accuracy insights
  let dailyScores := computeDailyScores resolvedPredictions
  { version := ledger.version
    lastUpdated := some currentDate
    predictions := resolvedPredictions
    accuracy := some accuracy
    insights := insights
    recommendations := recommendations
    dailyScores := dailyScores }

/-! Concrete fixtures used by the example conjuncts and witnesses. -/

/-- Before snapshot: AAPL at `pnlPct = 0.10` (spec §8 end-to-end example). -/
def mapBeforeEx : PosMap :=
  buildPositionMap ⟨some [⟨"AAPL", some 3600, some 600, some (1/10), some 3000, some 10⟩]⟩

/-- After snapshot with `pnlPct = 0.20` (delta `+0.10`). -/
def mapAfterUpEx : PosMap :=
  buildPositionMap ⟨some [⟨"AAPL", some 4000, some 1000, some (2/10), some 3000, some 10⟩]⟩

/-- After snapshot with `pnlPct = 0.103` (delta `+0.003`, inside the dead zone). -/
def mapAfter003Ex : PosMap :=
  buildPositionMap ⟨some [⟨"AAPL", some 3612, some 612, some (103/1000), some 3000, some 10⟩]⟩

/-- After snapshot with `pnlPct = 0.106` (delta `+0.006`, above the dead zone). -/
def mapAfter006Ex : PosMap :=
  buildPositionMap ⟨some [⟨"AAPL", some 3624, some 624, some (106/1000), some 3000, some 10⟩]⟩

/-- An unresolved BUY prediction on AAPL at confidence 0.7 and horizon 24h. -/
def predBuyEx : Prediction :=
  ⟨100, "AAPL", "combined", "BUY", some (7/10), "24h", some "up", none, none, none, none, false, none⟩

/-- An unresolved prediction whose action failed to normalise
(`action = "UNKNOWN"`, `expectedDirection = null`). -/
def predUnknownEx : Prediction :=
  ⟨100, "AAPL", "combined", "UNKNOWN", some (6/10), "24h", none, none, none, none, none, false, none⟩

/-- A resolved prediction at confidence 0.7 whose outcome is `correct`
iff the argument says so (calibration arithmetic fixture). -/
def resolvedAt07Ex (correct : Bool) : Prediction :=
  ⟨100, "AAPL", "combined", "BUY", some (7/10), "24h", some "up", none, none, none, none, true,
   some ⟨101, "up", 1/10, 400, correct, false, false, false⟩⟩

/-- The calibration-arithmetic fixture of spec §8: three resolved
predictions at confidence 0.7, two of them correct. -/
def calib3Ex : List Prediction := [resolvedAt07Ex true, resolvedAt07Ex false, resolvedAt07Ex true]

/-- A resolved but incorrect prediction at confidence 0.9 on a distinct
symbol (overconfident single-band fixture). -/
def badPredEx (i : ℕ) : Prediction :=
  ⟨100, "S" ++ toString i, "combined", "BUY", some (9/10), "24h", some "up", none, none, none, none, true,
   some ⟨101, "down", -(1/10), -400, false, false, false, false⟩⟩

/-- Three resolved, incorrect, confidence-0.9 predictions: a single
calibration band `{0.9, 0, 3, 0.9}`. -/
def overconf3Ex : List Prediction := [badPredEx 1, badPredEx 2, badPredEx 3]

/-- A resolved `UNKNOWN`-action prediction with an incorrect outcome. -/
def unknownResolvedEx : Prediction :=
  ⟨100, "AAPL", "combined", "UNKNOWN", some (6/10), "24h", none, none, none, none, none, true,
   some ⟨101, "up", 1/10, 400, false, false, false, false⟩⟩

/-- An analyst document whose single action item carries the numeric
confidence 250. -/
def c7docEx : Json :=
  .obj [("actions", .arr [.obj [("symbol", .str "X"), ("confidence", .num 250)]])]

/-- A two-band accuracy snapshot whose 0.9 band is overconfident at
sample size 3. -/
def twoBandAccEx : Accuracy :=
  ⟨6, 6, 0, some (1/2), [], [], [], [], [⟨0.5, 1/2, 3, 0⟩, ⟨0.9, 0, 3, 0.9⟩]⟩

/-- The factual report used by the resolution-window fixtures. -/
def reportEx (pnl : ℚ) : Report :=
  ⟨some [⟨"AAPL", some 3600, some 600, some pnl, some 3000, some 10⟩]⟩

/-- Environment with a single factual snapshot on day 14
(2026-02-14 of the spec example). -/
def env14Ex : Env :=
  ⟨[14], fun d => if d = 14 then some (reportEx (1/10)) else none, [], fun _ => none⟩

/-- Environment with factual snapshots on days 14 and 15 (2026-02-14 and
2026-02-15 of the spec example). -/
def env15Ex : Env :=
  ⟨[14, 15],
   fun d => if d = 14 then some (reportEx (1/10))
            else if d = 15 then some (reportEx (2/10)) else none,
   [], fun _ => none⟩

/-- The BUY prediction issued on day 14 with horizon 24h (target day 15). -/
def pred14Ex : Prediction :=
  ⟨14, "AAPL", "combined", "BUY", some (7/10), "24h", some "up", none, none, none, none, false, none⟩

/-! Theorems. -/

/-- C1: For every unresolved non-SCENARIO prediction whose symbol
appears in the before snapshot (so the resolver resolves it): with
up-expectation it is marked correct iff `actualDirection` is `up`; with
down-expectation it is marked correct iff `actualDirection` is `down` or
the symbol is absent from the after snapshot; with flat-expectation
(HOLD, the only action mapped to `flat`) it is marked correct iff
`actualDirection` is not `down`. -/
theorem C1_resolution_correctness_rules (p : Prediction) (b a : PosMap) (rd : ℕ)
    (hres : p.resolved = false) (hact : p.action ≠ "SCENARIO")
    (hhold : p.action = "HOLD" ↔ p.expectedDirection = some "flat")
    (hb : (mapGet b p.symbol).isSome) :
    (resolvePrediction p b a rd).resolved = true ∧
    ∃ o, (resolvePrediction p b a rd).outcome = some o ∧
      (p.expectedDirection = some "up" → (o.correct = true ↔ o.actualDirection = "up")) ∧
      (p.expectedDirection = some "down" →
        (o.correct = true ↔ (o.actualDirection = "down" ∨ mapGet a p.symbol = none))) ∧
      (p.expectedDirection = some "flat" → (o.correct = true ↔ o.actualDirection ≠ "down")) := by
  have hbne : ¬ (mapGet b p.symbol = none ∧ mapGet a p.symbol = none) := by
    rcases Option.isSome_iff_exists.mp hb with ⟨v, hv⟩
    simp [hv]
  unfold resolvePrediction
  rw [if_neg (by simp [hres]), if_neg hact, if_neg hbne]
  refine ⟨rfl, _, rfl, ?_, ?_, ?_⟩
  · intro hdir
    have hnh : ¬ (p.action = "HOLD") := fun h => by
      have := hhold.mp h
      rw [hdir] at this
      simp at this
    generalize round4 ((Option.map Position.pnlPct (mapGet a p.symbol)).getD 0 -
      (Option.map Position.pnlPct (mapGet b p.symbol)).getD 0) = v
    by_cases h1 : v > 0.005
    · simp [h1, hdir, hnh]
    · by_cases h2 : v < -0.005 <;> simp [h1, h2, hdir, hnh]
  · intro hdir
    have hnh : ¬ (p.action = "HOLD") := fun h => by
      have := hhold.mp h
      rw [hdir] at this
      simp at this
    generalize round4 ((Option.map Position.pnlPct (mapGet a p.symbol)).getD 0 -
      (Option.map Position.pnlPct (mapGet b p.symbol)).getD 0) = v
    by_cases hafter : mapGet a p.symbol = none
    · by_cases h1 : v > 0.005
      · simp [h1, hdir, hnh, hafter]
      · by_cases h2 : v < -0.005 <;> simp [h1, h2, hdir, hnh, hafter]
    · by_cases h1 : v > 0.005
      · simp [h1, hdir, hnh, hafter]
      · by_cases h2 : v < -0.005 <;> simp [h1, h2, hdir, hnh, hafter]
  · intro hdir
    have hH : p.action = "HOLD" := hhold.mpr hdir
    generalize round4 ((Option.map Position.pnlPct (mapGet a p.symbol)).getD 0 -
      (Option.map Position.pnlPct (mapGet b p.symbol)).getD 0) = v
    by_cases h1 : v > 0.005
    · simp [h1, hdir, hH]
    · by_cases h2 : v < -0.005 <;> simp [h1, h2, hdir, hH]

/-- C1 witness: the BUY fixture against the concrete snapshots. -/
theorem C1_resolution_correctness_rules_witness :
    ∃ o, (resolvePrediction predBuyEx mapBeforeEx mapAfterUpEx 101).outcome = some o ∧
      (o.correct = true ↔ o.actualDirection = "up") := by
  obtain ⟨-, o, ho, hup, -, -⟩ :=
    C1_resolution_correctness_rules predBuyEx mapBeforeEx mapAfterUpEx 101
      rfl (by decide) (by decide) (by decide)
  exact ⟨o, ho, hup rfl⟩

/-- C4: For every non-SCENARIO prediction resolved with its symbol in
both snapshots, the recorded `pnlPctChange` is the (rounded) change in
`pnlPct`, and `actualDirection` applies the ±0.005 dead zone to it:
above `+0.005` is `up`, below `-0.005` is `down`, anything in between is
`flat`; concretely a delta of `+0.003` resolves as `flat` and `+0.006`
as `up`. -/
theorem C4_dead_zone_direction (p : Prediction) (b a : PosMap) (rd : ℕ)
    (hres : p.resolved = false) (hact : p.action ≠ "SCENARIO")
    (posB posA : Position)
    (hb : mapGet b p.symbol = some posB) (ha : mapGet a p.symbol = some posA) :
    (∃ o, (resolvePrediction p b a rd).outcome = some o ∧
      o.pnlPctChange = round4 (posA.pnlPct - posB.pnlPct) ∧
      (o.pnlPctChange > 0.005 → o.actualDirection = "up") ∧
      (o.pnlPctChange < -0.005 → o.actualDirection = "down") ∧
      (-0.005 ≤ o.pnlPctChange → o.pnlPctChange ≤ 0.005 → o.actualDirection = "flat")) ∧
    (∃ o, (resolvePrediction predBuyEx mapBeforeEx mapAfter003Ex 101).outcome = some o ∧
      o.pnlPctChange = 0.003 ∧ o.actualDirection = "flat") ∧
    (∃ o, (resolvePrediction predBuyEx mapBeforeEx mapAfter006Ex 101).outcome = some o ∧
      o.pnlPctChange = 0.006 ∧ o.actualDirection = "up") := by
  refine ⟨?_, ?_, ?_⟩
  · have hbne : ¬ (mapGet b p.symbol = none ∧ mapGet a p.symbol = none) := by simp [hb]
    unfold resolvePrediction
    rw [if_neg (by simp [hres]), if_neg hact, if_neg hbne]
    refine ⟨_, rfl, by simp [hb, ha], ?_, ?_, ?_⟩
    · intro h
      simp only [Outcome.mk.injEq] at h ⊢
      rw [if_pos h]
    · intro h
      have hnot : ¬ (round4 ((Option.map Position.pnlPct (mapGet a p.symbol)).getD 0 -
          (Option.map Position.pnlPct (mapGet b p.symbol)).getD 0) > 0.005) := by
        intro hgt
        exact absurd (lt_trans h (lt_trans (by norm_num) hgt)) (lt_irrefl _)
      rw [if_neg hnot, if_pos h]
    · intro h1 h2
      rw [if_neg (by exact not_lt.mpr h2), if_neg (by exact not_lt.mpr h1)]
  · refine ⟨⟨101, "flat", 0.003, round4 12, false, false, false, false⟩, ?_, rfl, rfl⟩
    unfold resolvePrediction
    rw [if_neg (by decide), if_neg (by decide), if_neg (by decide)]
    norm_num [predBuyEx, mapBeforeEx, mapAfter003Ex, buildPositionMap, mapSet, mapGet,
      round4, jsRound]
    all_goals decide
  · refine ⟨⟨101, "up", 0.006, round4 24, true, false, false, false⟩, ?_, rfl, rfl⟩
    unfold resolvePrediction
    rw [if_neg (by decide), if_neg (by decide), if_neg (by decide)]
    norm_num [predBuyEx, mapBeforeEx, mapAfter006Ex, buildPositionMap, mapSet, mapGet,
      round4, jsRound]

/-- C4 witness: the +0.10 delta of the end-to-end example is above the
dead zone, so the direction is `up`. -/
theorem C4_dead_zone_direction_witness :
    ∃ o, (resolvePrediction predBuyEx mapBeforeEx mapAfterUpEx 101).outcome = some o ∧
      o.pnlPctChange = round4 ((2/10 : ℚ) - 1/10) ∧ o.actualDirection = "up" := by
  obtain ⟨⟨o, ho, hchg, hup, -, -⟩, -, -⟩ :=
    C4_dead_zone_direction predBuyEx mapBeforeEx mapAfterUpEx 101
      rfl (by decide) ⟨"AAPL", 3600, 600, 1/10, 3000, 10⟩ ⟨"AAPL", 4000, 1000, 2/10, 3000, 10⟩
      (by norm_num [mapBeforeEx, buildPositionMap, mapSet, mapGet, predBuyEx])
      (by norm_num [mapAfterUpEx, buildPositionMap, mapSet, mapGet, predBuyEx])
  refine ⟨o, ho, by simpa using hchg, hup ?_⟩
  rw [hchg]
  norm_num [round4, jsRound]

/-- C10: A prediction whose action normalised to UNKNOWN (so
`expectedDirection` is null) still resolves whenever its symbol appears
in either snapshot, with `outcome.correct = false`; resolved predictions
always enter the denominator `resolvedCount` of the accuracy aggregate,
and concretely a single resolved UNKNOWN prediction yields overall
accuracy 0 with an `UNKNOWN` group of total 1. -/
theorem C10_unknown_action_resolution (p : Prediction) (b a : PosMap) (rd : ℕ)
    (hres : p.resolved = false) (hact : p.action = "UNKNOWN")
    (hdir : p.expectedDirection = none)
    (hpres : ¬ (mapGet b p.symbol = none ∧ mapGet a p.symbol = none)) :
    ((resolvePrediction p b a rd).resolved = true ∧
      ∃ o, (resolvePrediction p b a rd).outcome = some o ∧ o.correct = false) ∧
    (∀ ps : List Prediction,
      (computeAccuracy ps).resolvedCount = (ps.filter (fun q => q.resolved && q.outcome.isSome)).length) ∧
    ((computeAccuracy [unknownResolvedEx]).resolvedCount = 1 ∧
      (computeAccuracy [unknownResolvedEx]).overall = some 0 ∧
      (computeAccuracy [unknownResolvedEx]).byAction = [("UNKNOWN", ⟨1, 0, 0⟩)]) := by
  refine ⟨?_, ?_, ?_⟩
  · unfold resolvePrediction
    rw [if_neg (by simp [hres]), if_neg (by rw [hact]; decide), if_neg hpres]
    exact ⟨rfl, _, rfl, by simp [hdir, hact]⟩
  · intro ps
    simp only [computeAccuracy]
    split
    next h => simpa using h.symm
    next h => rfl
  · refine ⟨rfl, ?_, ?_⟩ <;>
      norm_num [computeAccuracy, unknownResolvedEx, outcomeCorrect, groupAccuracy,
        groupTally, round4, jsRound]

/-- C10 witness: the UNKNOWN fixture resolves incorrect against the
concrete snapshots. -/
theorem C10_unknown_action_resolution_witness :
    ∃ o, (resolvePrediction predUnknownEx mapBeforeEx mapAfterUpEx 101).outcome = some o ∧
      o.correct = false := by
  obtain ⟨⟨-, o, ho, hc⟩, -, -⟩ :=
    C10_unknown_action_resolution predUnknownEx mapBeforeEx mapAfterUpEx 101
      rfl rfl rfl (by decide)
  exact ⟨o, ho, hc⟩

/-- The calibration fold ignores predictions with null confidence. -/
theorem calibFold_skips_none (ps : List Prediction) (acc : List (ℚ × ℕ × ℕ)) :
    ps.foldl (fun acc p =>
      match p.confidence with
      | none => acc
      | some c => bandTally acc ((jsRound (c * 10) : ℚ) / 10) (outcomeCorrect p)) acc =
    (ps.filter (fun p => p.confidence.isSome)).foldl (fun acc p =>
      match p.confidence with
      | none => acc
      | some c => bandTally acc ((jsRound (c * 10) : ℚ) / 10) (outcomeCorrect p)) acc := by
  induction ps generalizing acc with
  | nil => rfl
  | cons p ps ih =>
    cases hc : p.confidence with
    | none => simp [hc, ih]
    | some c => simp [hc, ih]

/-- C6: Calibration buckets resolved, confidence-bearing predictions
into 0.1-wide bands; predictions with null confidence are excluded from
calibration only (they still count as resolved).  Three resolved
predictions at confidence 0.7 with two correct yield the single band
`{predictedProb := 0.7, actualRate := 0.6667, sampleSize := 3,
gap := 0.0333}`, and adding a null-confidence resolved prediction leaves
the band unchanged while `resolvedCount` becomes 4. -/
theorem C6_calibration_bands :
    (∀ ps : List Prediction,
      computeCalibration ps = computeCalibration (ps.filter (fun p => p.confidence.isSome))) ∧
    (computeAccuracy calib3Ex).calibration = [⟨0.7, 0.6667, 3, 0.0333⟩] ∧
    (computeAccuracy (calib3Ex ++ [{ resolvedAt07Ex true with confidence := none }])).calibration =
      [⟨0.7, 0.6667, 3, 0.0333⟩] ∧
    (computeAccuracy (calib3Ex ++ [{ resolvedAt07Ex true with confidence := none }])).resolvedCount = 4 := by
  refine ⟨?_, ?_, ?_, ?_⟩
  · intro ps
    simp only [computeCalibration]
    rw [calibFold_skips_none]
  all_goals
    norm_num [computeAccuracy, calib3Ex, resolvedAt07Ex, outcomeCorrect, computeCalibration,
      bandTally, sortBands, insertBand, round4, jsRound, abs_of_nonneg]

/-- C7 counterexample: the extractor returns a prediction whose
confidence is 2.5 (from the source value 250), which is neither null nor
in the interval `[0, 1]`. -/
theorem C7_confidence_counterexample :
    (extractPredictions c7docEx 100).map (fun p => p.confidence) = [some (5/2)] ∧
    ¬ ((5/2 : ℚ) ≤ 1) := by
  constructor
  · with_unfolding_all decide
  · norm_num

/-- The fractional-digit value is non-negative. -/
theorem fracVal_nonneg (cs : List Char) : 0 ≤ fracVal cs := by
  induction cs with
  | nil => simp [fracVal]
  | cons c cs ih =>
    simp only [fracVal]
    exact div_nonneg (add_nonneg (by positivity) ih) (by norm_num)

/-- A value parsed by `parseDecimal` is non-negative. -/
theorem parseDecimal_nonneg (cs : List Char) (v : ℚ) (h : parseDecimal cs = some v) : 0 ≤ v := by
  simp only [parseDecimal] at h
  split at h
  · split at h
    · exact absurd h (by simp)
    · obtain rfl := Option.some.inj h
      exact add_nonneg (by positivity) (fracVal_nonneg _)
  · split at h
    · exact absurd h (by simp)
    · obtain rfl := Option.some.inj h
      positivity

/-- A value matched by `strNumVal` is non-negative (the `[\d.]+` run has
no sign). -/
theorem strNumVal_nonneg (s : String) (v : ℚ) (h : strNumVal s = some v) : 0 ≤ v := by
  unfold strNumVal at h
  split at h
  · exact absurd h (by simp)
  · exact parseDecimal_nonneg _ _ h

/-- `round4` maps `[0, 1]` into `[0, 1]`. -/
theorem round4_mem_unit (q : ℚ) (h0 : 0 ≤ q) (h1 : q ≤ 1) : 0 ≤ round4 q ∧ round4 q ≤ 1 := by
  unfold round4 jsRound
  constructor
  · apply div_nonneg _ (by norm_num)
    have h : (0 : ℤ) ≤ ⌊q * 10000 + 1 / 2⌋ := Int.floor_nonneg.mpr (by linarith)
    exact_mod_cast h
  · rw [div_le_one (by norm_num)]
    have h2 : ⌊q * 10000 + 1 / 2⌋ < 10001 := Int.floor_lt.mpr (by push_cast; linarith)
    have h3 : ⌊q * 10000 + 1 / 2⌋ ≤ 10000 := by omega
    exact_mod_cast h3

/-- C7 amended: the normalized confidence is null or a number, and it is
guaranteed to lie in `[0, 1]` only when the source value lies in
`[0, 100]` — a fraction in `[0, 1]`, a percent in `(1, 100]` given as a
number, or a percent string whose matched numeric run is at most 100.
Values outside that range (such as the number 250) are scaled but not
clamped and may exceed 1. -/
theorem C7_confidence_amended :
    (∀ q : ℚ, 0 ≤ q → q ≤ 100 →
      ∀ r, round4Opt (parseProb (.num q)) = some r → 0 ≤ r ∧ r ≤ 1) ∧
    (∀ (s : String) (v : ℚ), strNumVal s = some v → v ≤ 100 →
      ∀ r, round4Opt (parseProb (.str s)) = some r → 0 ≤ r ∧ r ≤ 1) := by
  constructor
  · intro q h0 h100 r hr
    simp only [parseProb, round4Opt, Option.map] at hr
    obtain rfl := Option.some.inj hr
    split_ifs with h1
    · exact round4_mem_unit _ (by positivity)
        ((div_le_one (by norm_num : (0:ℚ) < 100)).mpr h100)
    · exact round4_mem_unit _ h0 (le_of_not_lt h1)
  · intro s v hv h100 r hr
    have h0 : 0 ≤ v := strNumVal_nonneg s v hv
    simp only [parseProb, hv, round4Opt, Option.map] at hr
    obtain rfl := Option.some.inj hr
    split_ifs with h1
    · exact round4_mem_unit _ (by positivity)
        ((div_le_one (by norm_num : (0:ℚ) < 100)).mpr h100)
    · exact round4_mem_unit _ h0 (le_of_not_lt h1)

/-- C7 amended witness: the percent-as-number 75 normalises to 0.75,
inside `[0, 1]`. -/
theorem C7_confidence_amended_witness :
    round4Opt (parseProb (.num 75)) = some (3/4) ∧ (0 ≤ (3/4 : ℚ) ∧ (3/4 : ℚ) ≤ 1) := by
  refine ⟨by with_unfolding_all decide, ?_⟩
  exact C7_confidence_amended.1 75 (by norm_num) (by norm_num) (3/4) (by with_unfolding_all decide)

set_option maxRecDepth 40000 in
/-- C8 counterexample: three resolved predictions at confidence 0.9, all
incorrect, produce the single calibration band `{0.9, 0, 3, 0.9}`, which
is overconfident (`0.9 > 0 + 0.1`) at sample size 3 over 3 resolved
predictions — yet no overconfidence note is generated, because the
calibration insights are gated on at least two bands. -/
theorem C8_calibration_insights_counterexample :
    (overconf3Ex.filter (fun p => p.resolved && p.outcome.isSome)).length = 3 ∧
    (computeAccuracy overconf3Ex).calibration = [⟨0.9, 0, 3, 0.9⟩] ∧
    ((0.9 : ℚ) > 0 + 0.1) ∧ ((3 : ℕ) ≥ 3) ∧
    overconfidenceNote ∉ generateInsights (computeAccuracy overconf3Ex) overconf3Ex := by
  refine ⟨by decide, ?_, by norm_num, by norm_num, ?_⟩ <;> with_unfolding_all decide

/-- C8 amended: over at least 3 resolved predictions, and provided the
calibration table has at least two bands, an average gap above 0.15
yields the miscalibration note, any band with
`predictedProb > actualRate + 0.1` at sample size at least 3 yields the
overconfidence note, and the symmetric case yields the under-confidence
note. -/
theorem C8_calibration_insights_amended (accuracy : Accuracy) (preds : List Prediction)
    (hres : 3 ≤ (preds.filter (fun p => p.resolved && p.outcome.isSome)).length)
    (hbands : 2 ≤ accuracy.calibration.length) :
    (avgCalibrationGap accuracy > 0.15 →
      miscalibrationNote (avgCalibrationGap accuracy) ∈ generateInsights accuracy preds) ∧
    (∀ c ∈ accuracy.calibration, c.predictedProb > c.actualRate + 0.1 → 3 ≤ c.sampleSize →
      overconfidenceNote ∈ generateInsights accuracy preds) ∧
    (∀ c ∈ accuracy.calibration, c.actualRate > c.predictedProb + 0.1 → 3 ≤ c.sampleSize →
      underconfidenceNote ∈ generateInsights accuracy preds) := by
  have hn3 : ¬ ((preds.filter (fun p => p.resolved && p.outcome.isSome)).length < 3) := by omega
  refine ⟨?_, ?_, ?_⟩
  · intro hgap
    simp only [generateInsights, if_neg hn3, if_pos hbands, if_pos hgap]
    simp [List.mem_append]
  · intro c hc h1 h2
    have hmem : c ∈ accuracy.calibration.filter
        (fun c => decide (c.predictedProb > c.actualRate + 0.1 ∧ 3 ≤ c.sampleSize)) :=
      List.mem_filter.mpr ⟨hc, by simp [h1, h2]⟩
    have hne : (accuracy.calibration.filter
        (fun c => decide (c.predictedProb > c.actualRate + 0.1 ∧ 3 ≤ c.sampleSize))).length ≠ 0 :=
      Nat.pos_iff_ne_zero.mp (List.length_pos.mpr (List.ne_nil_of_mem hmem))
    simp only [generateInsights, if_neg hn3, if_pos hbands, if_pos hne]
    simp [List.mem_append]
  · intro c hc h1 h2
    have hmem : c ∈ accuracy.calibration.filter
        (fun c => decide (c.actualRate > c.predictedProb + 0.1 ∧ 3 ≤ c.sampleSize)) :=
      List.mem_filter.mpr ⟨hc, by simp [h1, h2]⟩
    have hne : (accuracy.calibration.filter
        (fun c => decide (c.actualRate > c.predictedProb + 0.1 ∧ 3 ≤ c.sampleSize))).length ≠ 0 :=
      Nat.pos_iff_ne_zero.mp (List.length_pos.mpr (List.ne_nil_of_mem hmem))
    simp only [generateInsights, if_neg hn3, if_pos hbands, if_pos hne]
    simp [List.mem_append]

/-- C8 amended witness: with two bands present, the overconfident
`{0.9, 0, 3, 0.9}` band produces the overconfidence note. -/
theorem C8_calibration_insights_amended_witness :
    overconfidenceNote ∈ generateInsights twoBandAccEx overconf3Ex := by
  obtain ⟨-, hover, -⟩ :=
    C8_calibration_insights_amended twoBandAccEx overconf3Ex (by decide) (by decide)
  exact hover ⟨0.9, 0, 3, 0.9⟩ (by simp [twoBandAccEx]) (by norm_num) (by norm_num)

/-- C9 counterexample: with an existing but unparsable ledger file the
load step silently yields the fresh empty ledger — no failure propagates
— and the update cycle then completes on that fresh state (here with no
inputs), which is what gets persisted over the old file. -/
theorem C9_corrupt_ledger_counterexample :
    loadLedger (some "this is not JSON") (fun _ => none) = freshLedger ∧
    freshLedger.predictions = [] ∧
    (updateLearningLedger ⟨[], fun _ => none, [], fun _ => none⟩ 1
      (loadLedger (some "this is not JSON") (fun _ => none))).predictions = [] := by
  exact ⟨rfl, rfl, rfl⟩

/-- C9 amended: a ledger file that cannot be parsed as valid prior state
is treated exactly like a missing one: `loadLedger` falls back to the
fresh empty versioned ledger and the cycle proceeds (silently replacing
the old history on persist) instead of failing. -/
theorem C9_corrupt_ledger_amended (text : String) (parseLedger : String → Option Ledger)
    (h : parseLedger text = none) :
    loadLedger (some text) parseLedger = freshLedger := by
  simp only [loadLedger]
  rw [h]

/-- C9 amended witness: a concrete corrupt file content. -/
theorem C9_corrupt_ledger_amended_witness :
    loadLedger (some "corrupt") (fun _ => none) = freshLedger :=
  C9_corrupt_ledger_amended "corrupt" (fun _ => none) rfl

/-- `resolvePrediction` either leaves the record untouched or returns a
resolved record (same issue date) whose outcome carries the given
resolution date. -/
theorem resolvePrediction_spec (p : Prediction) (b a : PosMap) (rd : ℕ) :
    resolvePrediction p b a rd = p ∨
    ((resolvePrediction p b a rd).resolved = true ∧
     (resolvePrediction p b a rd).date = p.date ∧
     ∃ o, (resolvePrediction p b a rd).outcome = some o ∧ o.resolvedDate = rd) := by
  unfold resolvePrediction resolveScenarioPrediction
  by_cases h1 : p.resolved = true
  · left; rw [if_pos (by simp [h1])]
  · rw [if_neg (by simp [h1])]
    by_cases h2 : p.action = "SCENARIO"
    · rw [if_pos h2, if_neg (by simp [h1])]
      right
      exact ⟨rfl, rfl, _, rfl, rfl⟩
    · rw [if_neg h2]
      by_cases h3 : mapGet b p.symbol = none ∧ mapGet a p.symbol = none
      · left; rw [if_pos h3]
      · rw [if_neg h3]
        right
        exact ⟨rfl, rfl, _, rfl, rfl⟩

/-- An already-resolved prediction passes through the resolution loop
unchanged. -/
theorem resolveStep_of_resolved (env : Env) (cd : ℕ) (p : Prediction) (h : p.resolved = true) :
    resolveStep env cd p = p := by
  simp only [resolveStep]
  rw [if_pos (by simp [h])]

/-- One pass of the resolution loop either leaves a record untouched or
marks it resolved with an outcome, preserving its issue date. -/
theorem resolveStep_spec (env : Env) (cd : ℕ) (p : Prediction) :
    resolveStep env cd p = p ∨
    ((resolveStep env cd p).resolved = true ∧ (resolveStep env cd p).date = p.date ∧
      (resolveStep env cd p).outcome.isSome) := by
  simp only [resolveStep]
  by_cases h1 : p.resolved = true
  · left; rw [if_pos (by simp [h1])]
  · rw [if_neg (by simp [h1])]
    cases hf : env.factualDates.find? (fun d => p.date + horizonToDays p.horizon ≤ d) with
    | none => left; rfl
    | some rd =>
      dsimp only
      by_cases h2 : cd < rd
      · left; rw [if_pos h2]
      · rw [if_neg h2]
        cases hb : env.report p.date with
        | none => left; rfl
        | some br =>
          cases ha : env.report rd with
          | none => left; rfl
          | some ar =>
            rcases resolvePrediction_spec p (buildPositionMap br) (buildPositionMap ar) rd with
              heq | ⟨hr, hd, o, ho, -⟩
            · left; exact heq
            · right; exact ⟨hr, hd, by simp [ho]⟩

/-- The resolution step is idempotent. -/
theorem resolveStep_idem (env : Env) (cd : ℕ) (p : Prediction) :
    resolveStep env cd (resolveStep env cd p) = resolveStep env cd p := by
  rcases resolveStep_spec env cd p with h | ⟨h1, -, -⟩
  · rw [h]; exact h
  · exact resolveStep_of_resolved env cd _ h1

/-- The resolution step preserves the issue date. -/
theorem resolveStep_date (env : Env) (cd : ℕ) (p : Prediction) :
    (resolveStep env cd p).date = p.date := by
  rcases resolveStep_spec env cd p with h | ⟨-, hd, -⟩
  · rw [h]
  · exact hd

/-- Mapping the resolution step twice equals mapping it once. -/
theorem map_resolveStep_idem (env : Env) (cd : ℕ) (l : List Prediction) :
    (l.map (resolveStep env cd)).map (resolveStep env cd) = l.map (resolveStep env cd) := by
  induction l with
  | nil => rfl
  | cons q l ih => simp [resolveStep_idem, ih]

/-- Records built by `parseActionItem` carry the issue date and start
unresolved with no outcome. -/
theorem parseActionItem_fields (item : Json) (d : ℕ) (w : String) (p : Prediction)
    (h : parseActionItem item d w = some p) :
    p.date = d ∧ p.resolved = false ∧ p.outcome = none := by
  simp only [parseActionItem] at h
  split at h
  · exact absurd h (by simp)
  · split at h
    · exact absurd h (by simp)
    · obtain rfl := Option.some.inj h
      exact ⟨rfl, rfl, rfl⟩

/-- Records built by the scenario extractor carry the issue date and
start unresolved with no outcome. -/
theorem scenarioEntry_fields (s : Json) (d : ℕ) (w : String) (p : Prediction)
    (h : scenarioEntry s d w = some p) :
    p.date = d ∧ p.resolved = false ∧ p.outcome = none := by
  simp only [scenarioEntry] at h
  split at h
  · exact absurd h (by simp)
  · split at h
    · exact absurd h (by simp)
    · obtain rfl := Option.some.inj h
      exact ⟨rfl, rfl, rfl⟩

/-- Field lemma for `extractWalletScenarios`. -/
theorem extractWalletScenarios_fields (sd : Json) (d : ℕ) (w : String) (p : Prediction)
    (h : p ∈ extractWalletScenarios sd d w) :
    p.date = d ∧ p.resolved = false ∧ p.outcome = none := by
  simp only [extractWalletScenarios] at h
  split at h
  · simp at h
  · rcases List.mem_filterMap.mp h with ⟨s, -, hs⟩
    exact scenarioEntry_fields s d w p hs

/-- Field lemma for one action-list field scan. -/
theorem actionsOfField_fields (wj : Json) (field : String) (wn : String) (d : ℕ) (p : Prediction)
    (h : p ∈ (match jget wj field with
      | .arr items => items.filterMap (fun item => parseActionItem item d wn)
      | _ => [])) :
    p.date = d ∧ p.resolved = false ∧ p.outcome = none := by
  cases hj : jget wj field <;> rw [hj] at h <;> try simp at h
  case arr items =>
    rcases h with ⟨item, -, hi⟩
    exact parseActionItem_fields item d wn p hi

/-- Field lemma for `extractActionsFromWallet`. -/
theorem extractActionsFromWallet_fields (wj : Json) (wn : String) (d : ℕ) (p : Prediction)
    (h : p ∈ extractActionsFromWallet wj wn d) :
    p.date = d ∧ p.resolved = false ∧ p.outcome = none := by
  simp only [extractActionsFromWallet] at h
  have hact : ∀ q ∈ actionListFields.flatMap (fun field =>
      match jget wj field with
      | .arr items => items.filterMap (fun item => parseActionItem item d wn)
      | _ => []), q.date = d ∧ q.resolved = false ∧ q.outcome = none := by
    intro q hq
    rcases List.mem_flatMap.mp hq with ⟨field, -, hf⟩
    exact actionsOfField_fields wj field wn d q hf
  split at h
  · rcases List.mem_append.mp h with h1 | h2
    · exact hact p h1
    · exact extractWalletScenarios_fields _ d wn p h2
  · exact hact p h

/-- Field lemma for `extractScenarios`. -/
theorem extractScenarios_fields (doc : Json) (d : ℕ) (p : Prediction)
    (h : p ∈ extractScenarios doc d) :
    p.date = d ∧ p.resolved = false ∧ p.outcome = none := by
  simp only [extractScenarios] at h
  rcases List.mem_flatMap.mp h with ⟨field, -, hf⟩
  split at hf
  · exact extractWalletScenarios_fields _ d _ p hf
  · simp at hf

/-- Deduplication only drops elements. -/
theorem dedupBySeen_subset (seen : List String) (l : List Prediction) :
    ∀ p ∈ dedupBySeen seen l, p ∈ l := by
  induction l generalizing seen with
  | nil => simp [dedupBySeen]
  | cons q l ih =>
    intro p hp
    simp only [dedupBySeen] at hp
    split at hp
    · exact List.mem_cons_of_mem _ (ih _ _ hp)
    · rcases List.mem_cons.mp hp with rfl | hp2
      · exact List.mem_cons_self _ _
      · exact List.mem_cons_of_mem _ (ih _ _ hp2)

/-- Every prediction returned by the extractor carries the issue date it
was extracted for and starts unresolved with a null outcome. -/
theorem extractPredictions_fields (doc : Json) (d : ℕ) (p : Prediction)
    (h : p ∈ extractPredictions doc d) :
    p.date = d ∧ p.resolved = false ∧ p.outcome = none := by
  simp only [extractPredictions] at h
  split at h
  · simp at h
  · have hsub := dedupBySeen_subset _ _ p h
    rcases List.mem_append.mp hsub with h12 | h3
    · rcases List.mem_append.mp h12 with h1 | h2
      · rcases List.mem_flatMap.mp h1 with ⟨ws, -, hw⟩
        exact extractActionsFromWallet_fields ws.1 ws.2 d p hw
      · rcases List.mem_flatMap.mp h2 with ⟨field, -, hf⟩
        exact actionsOfField_fields doc field "combined" d p hf
    · exact extractScenarios_fields doc d p h3

/-- Membership in the newly-extracted predictions of one cycle: the
record comes from some analyst document whose date is not yet among the
existing prediction dates. -/
theorem extractNewPredictions_spec (env : Env) (ds : List ℕ) (q : Prediction)
    (h : q ∈ extractNewPredictions env ds) :
    q.resolved = false ∧ q.outcome = none ∧
    ∃ d, d ∈ env.aiDates ∧ d ∉ ds ∧
      ∃ doc, env.aiDoc d = some doc ∧ ¬ (jsFalsy doc = true) ∧ q ∈ extractPredictions doc d := by
  unfold extractNewPredictions at h
  rcases List.mem_flatMap.mp h with ⟨d, hd, hq⟩
  by_cases hc : ds.contains d = true
  · rw [if_pos hc] at hq
    simp at hq
  · rw [if_neg hc] at hq
    cases hdoc : env.aiDoc d with
    | none =>
      rw [hdoc] at hq
      simp at hq
    | some doc =>
      rw [hdoc] at hq
      dsimp only at hq
      by_cases hf : jsFalsy doc = true
      · rw [if_pos hf] at hq
        simp at hq
      · rw [if_neg hf] at hq
        obtain ⟨-, hres, hout⟩ := extractPredictions_fields doc d q hq
        exact ⟨hres, hout, d, hd, fun hm => hc (List.elem_iff.mpr hm), doc, hdoc, hf, hq⟩

/-- `updateLearningLedger` written out as an explicit record. -/
theorem updateLearningLedger_eq_mk (env : Env) (cd : ℕ) (L : Ledger) :
    updateLearningLedger env cd L =
      ⟨L.version, some cd, updatedPredictions env cd L,
       some (computeAccuracy (updatedPredictions env cd L)),
       generateInsights (computeAccuracy (updatedPredictions env cd L)) (updatedPredictions env cd L),
       generateRecommendations (computeAccuracy (updatedPredictions env cd L))
         (generateInsights (computeAccuracy (updatedPredictions env cd L)) (updatedPredictions env cd L)),
       computeDailyScores (updatedPredictions env cd L)⟩ := rfl

/-- The issue dates present after an update cycle are the dates of the
prior predictions followed by those of the newly extracted ones. -/
theorem updatedPredictions_dates (env : Env) (cd : ℕ) (L : Ledger) :
    (updatedPredictions env cd L).map Prediction.date =
      (L.predictions ++ extractNewPredictions env (L.predictions.map Prediction.date)).map
        Prediction.date := by
  unfold updatedPredictions
  rw [List.map_map]
  exact List.map_congr_left (fun q _ => resolveStep_date env cd q)

/-- Running the extraction step a second time on the updated ledger
finds nothing new. -/
theorem extractNewPredictions_after_update (env : Env) (cd : ℕ) (L : Ledger) :
    extractNewPredictions env ((updateLearningLedger env cd L).predictions.map Prediction.date)
      = [] := by
  rw [List.eq_nil_iff_forall_not_mem]
  intro q hq
  obtain ⟨-, -, d, hdAi, hdNotMem, doc, hdoc, hfal, hqin⟩ :=
    extractNewPredictions_spec env _ q hq
  have hqd : q.date = d := (extractPredictions_fields doc d q hqin).1
  have hdates : (updateLearningLedger env cd L).predictions.map Prediction.date =
      (L.predictions ++ extractNewPredictions env (L.predictions.map Prediction.date)).map
        Prediction.date := updatedPredictions_dates env cd L
  by_cases hC : d ∈ L.predictions.map Prediction.date
  · exact hdNotMem (by
      rw [hdates, List.map_append]
      exact List.mem_append_left _ hC)
  · have hqN0 : q ∈ extractNewPredictions env (L.predictions.map Prediction.date) := by
      have hbody : q ∈ (if (L.predictions.map Prediction.date).contains d = true then []
          else
            match env.aiDoc d with
            | none => []
            | some aiData => if jsFalsy aiData = true then [] else extractPredictions aiData d) := by
        rw [if_neg (fun hct => hC (List.elem_iff.mp hct)), hdoc]
        dsimp only
        rw [if_neg hfal]
        exact hqin
      exact List.mem_flatMap.mpr ⟨d, hdAi, hbody⟩
    exact hdNotMem (by
      rw [hdates, List.map_append]
      exact List.mem_append_right _ (List.mem_map.mpr ⟨q, hqN0, hqd⟩))

/-- C2: Running the full update cycle twice in immediate succession with
the same external inputs returns the same ledger: in particular the same
prediction set (same cardinality, same identity keys, same
resolved/outcome values for every prediction). -/
theorem C2_update_cycle_idempotent (env : Env) (cd : ℕ) (L : Ledger) :
    updateLearningLedger env cd (updateLearningLedger env cd L) = updateLearningLedger env cd L := by
  have hP : updatedPredictions env cd (updateLearningLedger env cd L) =
      (updateLearningLedger env cd L).predictions := by
    simp only [updatedPredictions]
    rw [extractNewPredictions_after_update env cd L, List.append_nil]
    show ((updatedPredictions env cd L).map (resolveStep env cd)) = updatedPredictions env cd L
    simp only [updatedPredictions]
    exact map_resolveStep_idem env cd _
  rw [updateLearningLedger_eq_mk env cd (updateLearningLedger env cd L), hP,
    updateLearningLedger_eq_mk env cd L]

/-- C3: Every prediction produced by extraction, and every prediction in
the ledger after an update cycle (assuming the prior ledger satisfied
it), satisfies `resolved = false ↔ outcome = null`; and a record that is
already resolved is left exactly as it is (same index, same fields, same
outcome) by any further update cycle. -/
theorem C3_resolved_outcome_invariants :
    (∀ (doc : Json) (d : ℕ) (p : Prediction), p ∈ extractPredictions doc d →
      (p.resolved = false ↔ p.outcome = none)) ∧
    (∀ (env : Env) (cd : ℕ) (L : Ledger),
      (∀ p ∈ L.predictions, (p.resolved = false ↔ p.outcome = none)) →
      ∀ p ∈ (updateLearningLedger env cd L).predictions,
        (p.resolved = false ↔ p.outcome = none)) ∧
    (∀ (env : Env) (cd : ℕ) (L : Ledger) (i : ℕ) (p : Prediction),
      L.predictions[i]? = some p → p.resolved = true →
      (updateLearningLedger env cd L).predictions[i]? = some p) := by
  refine ⟨?_, ?_, ?_⟩
  · intro doc d p hp
    obtain ⟨-, hres, hout⟩ := extractPredictions_fields doc d p hp
    simp [hres, hout]
  · intro env cd L hL p hp
    have hp2 : p ∈ (L.predictions ++
        extractNewPredictions env (L.predictions.map Prediction.date)).map
          (resolveStep env cd) := hp
    rcases List.mem_map.mp hp2 with ⟨q, hq, rfl⟩
    have hinvq : q.resolved = false ↔ q.outcome = none := by
      rcases List.mem_append.mp hq with h | h
      · exact hL q h
      · obtain ⟨hres, hout, -⟩ := extractNewPredictions_spec env _ q h
        simp [hres, hout]
    rcases resolveStep_spec env cd q with heq | ⟨hres, -, hout⟩
    · rw [heq]; exact hinvq
    · rw [hres, Option.isSome_iff_exists] at *
      rcases hout with ⟨o, ho⟩
      simp [hres, ho]
  · intro env cd L i p hi hres
    have hlen : i < L.predictions.length := by
      by_contra hge
      push_neg at hge
      rw [List.getElem?_eq_none hge] at hi
      exact absurd hi (by simp)
    show ((L.predictions ++
      extractNewPredictions env (L.predictions.map Prediction.date)).map
        (resolveStep env cd))[i]? = some p
    rw [List.getElem?_map, List.getElem?_append_left hlen, hi]
    simp [resolveStep_of_resolved env cd p hres]

/-- C3 witness: an update cycle on a ledger holding one resolved and one
unresolved (invariant-satisfying) record keeps the invariant and leaves
the resolved record in place. -/
theorem C3_resolved_outcome_invariants_witness :
    (predBuyEx.resolved = false ↔ predBuyEx.outcome = none) ∧
    ((updateLearningLedger env14Ex 14
        { freshLedger with predictions := [resolvedAt07Ex true, predBuyEx] }).predictions[0]? =
      some (resolvedAt07Ex true)) := by
  constructor
  · simp [predBuyEx]
  · exact C3_resolved_outcome_invariants.2.2 env14Ex 14
      { freshLedger with predictions := [resolvedAt07Ex true, predBuyEx] } 0
      (resolvedAt07Ex true) rfl rfl

/-- The first snapshot date satisfying the target-date bound is minimal
among all such dates when the date list is sorted. -/
theorem sorted_find_min :
    ∀ (l : List ℕ) (t rd : ℕ), l.Sorted (· ≤ ·) →
      l.find? (fun d => t ≤ d) = some rd → ∀ d ∈ l, t ≤ d → rd ≤ d := by
  intro l
  induction l with
  | nil => intro t rd _ hf; simp at hf
  | cons x l ih =>
    intro t rd hs hf d hd ht
    by_cases hx : t ≤ x
    · rw [List.find?_cons_of_pos _ (by simp [hx])] at hf
      obtain rfl := Option.some.inj hf
      rcases List.mem_cons.mp hd with rfl | hd2
      · exact le_refl _
      · exact (List.sorted_cons.mp hs).1 d hd2
    · rw [List.find?_cons_of_neg _ (by simp [hx])] at hf
      rcases List.mem_cons.mp hd with rfl | hd2
      · exact absurd ht hx
      · exact ih t rd (List.sorted_cons.mp hs).2 hf d hd2 ht

/-- C5: With a sorted snapshot list, an unresolved prediction is
resolved only against the earliest snapshot date that is at least the
issue date plus the horizon offset and at most the run's current date;
when no snapshot lies in that window the prediction is simply left
unchanged (no error).  Concretely (dates as day numbers, 14 standing for
2026-02-14): a 24h prediction issued on day 14 is not resolved by a run
on day 14 — with or without a day-15 snapshot — and once the day-15
snapshot exists and the current date is 15 it resolves against day 15. -/
theorem C5_resolution_window (env : Env) (cd : ℕ) (p : Prediction)
    (hsorted : env.factualDates.Sorted (· ≤ ·)) (hunres : p.resolved = false) :
    ((∀ d ∈ env.factualDates, ¬ (p.date + horizonToDays p.horizon ≤ d ∧ d ≤ cd)) →
      resolveStep env cd p = p) ∧
    ((resolveStep env cd p).resolved = true →
      ∃ rd, env.factualDates.find? (fun d => p.date + horizonToDays p.horizon ≤ d) = some rd ∧
        rd ∈ env.factualDates ∧ p.date + horizonToDays p.horizon ≤ rd ∧ rd ≤ cd ∧
        (∀ d ∈ env.factualDates, p.date + horizonToDays p.horizon ≤ d → rd ≤ d) ∧
        ∃ o, (resolveStep env cd p).outcome = some o ∧ o.resolvedDate = rd) ∧
    (resolveStep env14Ex 14 pred14Ex = pred14Ex ∧
      resolveStep env15Ex 14 pred14Ex = pred14Ex ∧
      (resolveStep env15Ex 15 pred14Ex).resolved = true ∧
      ∃ o, (resolveStep env15Ex 15 pred14Ex).outcome = some o ∧ o.resolvedDate = 15) := by
  refine ⟨?_, ?_, ?_, ?_, ?_⟩
  · intro hwin
    simp only [resolveStep]
    rw [if_neg (by simp [hunres])]
    cases hf : env.factualDates.find? (fun d => p.date + horizonToDays p.horizon ≤ d) with
    | none => rfl
    | some rd =>
      dsimp only
      have hmem := List.mem_of_find?_eq_some hf
      have htgt : p.date + horizonToDays p.horizon ≤ rd := by
        have := List.find?_some hf
        simpa using this
      have hcd : cd < rd := by
        by_contra hle
        push_neg at hle
        exact hwin rd hmem ⟨htgt, hle⟩
      rw [if_pos hcd]
  · intro hres2
    simp only [resolveStep] at hres2 ⊢
    rw [if_neg (by simp [hunres])] at hres2 ⊢
    cases hf : env.factualDates.find? (fun d => p.date + horizonToDays p.horizon ≤ d) with
    | none =>
      rw [hf] at hres2
      dsimp only at hres2
      rw [hunres] at hres2
      exact absurd hres2 (by simp)
    | some rd =>
      rw [hf] at hres2
      dsimp only at hres2 ⊢
      have hmem := List.mem_of_find?_eq_some hf
      have htgt : p.date + horizonToDays p.horizon ≤ rd := by
        have := List.find?_some hf
        simpa using this
      by_cases hcd : cd < rd
      · rw [if_pos hcd] at hres2
        rw [hunres] at hres2
        exact absurd hres2 (by simp)
      · rw [if_neg hcd] at hres2 ⊢
        cases hb : env.report p.date with
        | none =>
          rw [hb] at hres2
          dsimp only at hres2
          rw [hunres] at hres2
          exact absurd hres2 (by simp)
        | some br =>
          cases ha : env.report rd with
          | none =>
            rw [hb, ha] at hres2
            dsimp only at hres2
            rw [hunres] at hres2
            exact absurd hres2 (by simp)
          | some ar =>
            rw [hb, ha] at hres2
            dsimp only at hres2 ⊢
            rcases resolvePrediction_spec p (buildPositionMap br) (buildPositionMap ar) rd with
              heq | ⟨-, -, o, ho, hod⟩
            · rw [heq, hunres] at hres2
              exact absurd hres2 (by simp)
            · exact ⟨rd, rfl, hmem, htgt, not_lt.mp hcd,
                sorted_find_min env.factualDates _ rd hsorted hf, o, ho, hod⟩
  · with_unfolding_all decide
  · with_unfolding_all decide
  · constructor
    · with_unfolding_all decide
    · exact ⟨⟨15, "up", 1/10, 0, true, false, false, false⟩, by with_unfolding_all decide, rfl⟩

/-- C5 witness: a run on day 14 with only the day-14 snapshot leaves the
24h prediction issued on day 14 unresolved. -/
theorem C5_resolution_window_witness :
    resolveStep env14Ex 14 pred14Ex = pred14Ex := by
  obtain ⟨hno, -, -⟩ :=
    C5_resolution_window env14Ex 14 pred14Ex (by simp [env14Ex]) rfl
  exact hno (by decide)

end AiLearning
